import Mathlib

/-!
Verification of the OAuth credential core of the gmail-mcp-server repository.

Shallow embedding: strings are modelled as `List Char`, byte strings as
`List (Fin 256)`.  Pure Python functions from `gmail_mcp/utils/encryption.py`,
`gmail_mcp/auth/tokens.py`, `gmail_mcp/auth/storage.py`,
`gmail_mcp/auth/oauth.py` and `gmail_mcp/gmail/client.py` are translated to
executable Lean definitions; stateful code is modelled by explicit state
passing or by a step function on a state type.  External library primitives
(the AES-GCM cipher from the `cryptography` package, the JSON codec from the
standard library) are parameters of the embedding, constrained only by their
documented round-trip contracts.
-/

namespace GmailMcp

/-- Python `str` modelled as a list of characters. -/
abbrev Str := List Char

/-- A single byte. -/
abbrev Byte := Fin 256

/-- Python `bytes` modelled as a list of bytes. -/
abbrev Bytes := List Byte

/-- The ASCII whitespace characters that Python's `bytes.fromhex` skips and
that `str.strip` removes (restricted to ASCII, which is all the claims use). -/
def pyIsSpace (c : Char) : Bool :=
  c = ' ' || c = '\t' || c = '\n' || c = '\x0b' || c = '\x0c' || c = '\r'

/-- `str.strip()`: drop leading and trailing whitespace. -/
def pyStrip (s : Str) : Str :=
  ((s.dropWhile pyIsSpace).reverse.dropWhile pyIsSpace).reverse

/-- Lowercase hex digit for a value below 16, as produced by `bytes.hex()`. -/
def hexDigitChar (n : Nat) : Char :=
  if n < 10 then Char.ofNat (48 + n) else Char.ofNat (87 + n)

/-- `bytes.hex()` on one byte: two lowercase hex digits. -/
def byteToHex (b : Byte) : Str :=
  [hexDigitChar (b.val / 16), hexDigitChar (b.val % 16)]

/-- `bytes.hex()`: lowercase hex encoding of a byte string. -/
def bytesToHex : Bytes → Str
  | [] => []
  | b :: bs => byteToHex b ++ bytesToHex bs

/-- The numeric value of a hex digit (either case), if the character is one. -/
def hexCharVal (c : Char) : Option (Fin 16) :=
  if h : 48 ≤ c.toNat ∧ c.toNat ≤ 57 then some ⟨c.toNat - 48, by omega⟩
  else if h : 97 ≤ c.toNat ∧ c.toNat ≤ 102 then some ⟨c.toNat - 87, by omega⟩
  else if h : 65 ≤ c.toNat ∧ c.toNat ≤ 70 then some ⟨c.toNat - 55, by omega⟩
  else none

/-- Whether a character is a hexadecimal digit. -/
def isHexChar (c : Char) : Bool := (hexCharVal c).isSome

/-- Combine a high and a low hex digit into one byte. -/
def mkByte (hi lo : Fin 16) : Byte :=
  ⟨hi.val * 16 + lo.val, by have h1 := hi.isLt; have h2 := lo.isLt; omega⟩

/-- Python `bytes.fromhex`: pairs of hex digits, with ASCII whitespace allowed
between byte pairs (CPython skips whitespace before each pair; the two digits
of a pair must be adjacent).  Returns `none` where CPython raises
`ValueError`. -/
def pyFromhex : Str → Option Bytes
  | [] => some []
  | c :: cs =>
    if pyIsSpace c then pyFromhex cs
    else
      match cs with
      | [] => none
      | c2 :: rest =>
        match hexCharVal c, hexCharVal c2 with
        | some hi, some lo => (pyFromhex rest).map (fun bs => mkByte hi lo :: bs)
        | _, _ => none

/-- Error raised by `key_from_hex` (`ValidationError` in the source). -/
inductive KeyErr where
  | invalidLength (expected got : Nat)
  | nonHex
deriving DecidableEq, Repr

/-- `key_from_hex` from `gmail_mcp/utils/encryption.py`: strip surrounding
whitespace, require length exactly 64, then `bytes.fromhex`. -/
def key_from_hex (s : Str) : Except KeyErr Bytes :=
  let t := pyStrip s
  if t.length ≠ 64 then .error (.invalidLength 64 t.length)
  else
    match pyFromhex t with
    | none => .error .nonHex
    | some bs => .ok bs

/-- The length of the key carried by an `ok` result, if any. -/
def keyLenOf : Except KeyErr Bytes → Option Nat
  | .ok bs => some bs.length
  | .error _ => none

theorem hexCharVal_hexDigitChar :
    ∀ n : Fin 16, hexCharVal (hexDigitChar n.val) = some n := by decide

theorem pyIsSpace_hexDigitChar :
    ∀ n : Fin 16, pyIsSpace (hexDigitChar n.val) = false := by decide

theorem hexChar_not_space (c : Char) (h : pyIsSpace c = true) :
    hexCharVal c = none := by
  simp only [pyIsSpace, Bool.or_eq_true, decide_eq_true_eq] at h
  rcases h with ((((h | h) | h) | h) | h) | h <;> subst h <;> decide

/-- `bytes.fromhex` inverts `bytes.hex()`. -/
theorem pyFromhex_bytesToHex (bs : Bytes) : pyFromhex (bytesToHex bs) = some bs := by
  induction bs with
  | nil => rfl
  | cons b bs ih =>
    have hlt : b.val / 16 < 16 := by have := b.isLt; omega
    have hlt2 : b.val % 16 < 16 := Nat.mod_lt _ (by omega)
    have hhi := hexCharVal_hexDigitChar ⟨b.val / 16, hlt⟩
    have hlo := hexCharVal_hexDigitChar ⟨b.val % 16, hlt2⟩
    have hsp := pyIsSpace_hexDigitChar ⟨b.val / 16, hlt⟩
    have hb : mkByte ⟨b.val / 16, hlt⟩ ⟨b.val % 16, hlt2⟩ = b := by
      apply Fin.ext
      simp only [mkByte]
      omega
    simp only [bytesToHex, byteToHex, List.cons_append, List.nil_append]
    simp only [pyFromhex, hsp, Bool.false_eq_true, if_false, hhi, hlo, ih,
      Option.map_some', hb]

/-- On an even-length string of pure hex digits, `bytes.fromhex` succeeds and
returns half as many bytes. -/
theorem pyFromhex_allHex :
    ∀ (n : Nat) (t : Str), (∀ c ∈ t, isHexChar c = true) → t.length = 2 * n →
      ∃ bs, pyFromhex t = some bs ∧ bs.length = n := by
  intro n
  induction n with
  | zero =>
    intro t _ hlen
    have : t = [] := List.eq_nil_of_length_eq_zero (by omega)
    subst this
    exact ⟨[], rfl, rfl⟩
  | succ m ih =>
    intro t hhex hlen
    match t with
    | [] => simp at hlen
    | [c] => simp at hlen; omega
    | c1 :: c2 :: rest =>
      have h1 : isHexChar c1 = true := hhex c1 (by simp)
      have h2 : isHexChar c2 = true := hhex c2 (by simp)
      have hns : pyIsSpace c1 = false := by
        cases hsp : pyIsSpace c1 with
        | false => rfl
        | true =>
          have := hexChar_not_space c1 hsp
          simp [isHexChar, this] at h1
      obtain ⟨v1, hv1⟩ : ∃ v, hexCharVal c1 = some v := by
        simp only [isHexChar, Option.isSome_iff_exists] at h1; exact h1
      obtain ⟨v2, hv2⟩ : ∃ v, hexCharVal c2 = some v := by
        simp only [isHexChar, Option.isSome_iff_exists] at h2; exact h2
      have hrest : rest.length = 2 * m := by
        simp only [List.length_cons] at hlen; omega
      obtain ⟨bs, hbs, hbslen⟩ :=
        ih rest (fun c hc => hhex c (by simp [hc])) hrest
      refine ⟨mkByte v1 v2 :: bs, ?_, by simp [hbslen]⟩
      simp only [pyFromhex, hns, Bool.false_eq_true, if_false, hv1, hv2, hbs,
        Option.map_some']

/-- A character that is neither a hex digit nor ASCII whitespace makes
`bytes.fromhex` fail. -/
theorem pyFromhex_bad_char :
    ∀ t : Str, (∃ c ∈ t, isHexChar c = false ∧ pyIsSpace c = false) →
      pyFromhex t = none := by
  intro t
  induction t using pyFromhex.induct with
  | case1 =>
    intro h
    simp at h
  | case2 c cs hsp ih =>
    rintro ⟨c0, hmem, hh, hs⟩
    have hcs : c0 ∈ cs := by
      rcases List.mem_cons.mp hmem with rfl | h
      · rw [hsp] at hs; exact absurd hs (by simp)
      · exact h
    rw [pyFromhex.eq_def]
    simp only [hsp, if_true]
    exact ih ⟨c0, hcs, hh, hs⟩
  | case3 c hsp =>
    intro _
    simp [pyFromhex, hsp]
  | case4 c hsp c2 rest hi lo hv2 hv1 ih =>
    rintro ⟨c0, hmem, hh, hs⟩
    have hrest : c0 ∈ rest := by
      rcases List.mem_cons.mp hmem with rfl | h
      · rw [isHexChar, hv1] at hh; simp at hh
      · rcases List.mem_cons.mp h with rfl | h2
        · rw [isHexChar, hv2] at hh; simp at hh
        · exact h2
    have hnone := ih ⟨c0, hrest, hh, hs⟩
    simp only [pyFromhex, hsp, Bool.false_eq_true, if_false, hv1, hv2, hnone,
      Option.map_none']
  | case5 c hsp c2 rest hfalse =>
    intro _
    simp only [pyFromhex, hsp, Bool.false_eq_true, if_false]

/-- C7 claim as written is refuted below: `key_from_hex` accepts the 64-character
input `"aa  " ++ "a"*60`, which contains two space characters (non-hex), and
returns a 31-byte key rather than a 32-byte one.  The length check runs on the
stripped string before `bytes.fromhex`, and `bytes.fromhex` skips ASCII
whitespace between byte pairs. -/
theorem c7_key_from_hex_counterexample :
    key_from_hex ('a' :: 'a' :: ' ' :: ' ' :: List.replicate 60 'a')
        = .ok (List.replicate 31 (170 : Fin 256))
    ∧ (' ' ∈ ('a' :: 'a' :: ' ' :: ' ' :: List.replicate 60 'a'))
    ∧ isHexChar ' ' = false
    ∧ (List.replicate 31 (170 : Fin 256)).length ≠ 32 :=
  ⟨by rfl, by decide, by rfl, by decide⟩

/-- C7 (amended): an input whose stripped form has length other than 64 fails
with the length error; an input whose stripped form is 64 hex digits is
accepted with a 32-byte key; an input whose stripped form has length 64 but
contains a character that is neither a hex digit nor ASCII whitespace fails
with the non-hex error.  (Inputs of length 64 containing interior whitespace
between byte pairs are accepted with a key shorter than 32 bytes.) -/
theorem c7_key_from_hex_amended :
    (∀ s : Str, (pyStrip s).length ≠ 64 →
        key_from_hex s = .error (.invalidLength 64 (pyStrip s).length))
    ∧ (∀ s : Str, (pyStrip s).length = 64 → (∀ c ∈ pyStrip s, isHexChar c = true) →
        keyLenOf (key_from_hex s) = some 32)
    ∧ (∀ (s : Str) (c : Char), c ∈ pyStrip s → isHexChar c = false →
        pyIsSpace c = false → (pyStrip s).length = 64 →
        key_from_hex s = .error .nonHex) := by
  refine ⟨?_, ?_, ?_⟩
  · intro s h
    simp only [key_from_hex]
    rw [if_pos h]
  · intro s hlen hhex
    obtain ⟨bs, hbs, hbslen⟩ := pyFromhex_allHex 32 (pyStrip s) hhex (by omega)
    simp only [key_from_hex]
    rw [if_neg (by omega), hbs]
    simp [keyLenOf, hbslen]
  · intro s c hmem hh hs hlen
    have hnone := pyFromhex_bad_char (pyStrip s) ⟨c, hmem, hh, hs⟩
    simp only [key_from_hex]
    rw [if_neg (by omega), hnone]

theorem c7_key_from_hex_amended_witness :
    keyLenOf (key_from_hex (List.replicate 64 'a')) = some 32
    ∧ key_from_hex ['x'] = .error (.invalidLength 64 1)
    ∧ key_from_hex ('z' :: List.replicate 63 'a') = .error .nonHex :=
  ⟨c7_key_from_hex_amended.2.1 (List.replicate 64 'a') (by decide) (by decide),
   c7_key_from_hex_amended.1 ['x'] (by decide),
   c7_key_from_hex_amended.2.2 ('z' :: List.replicate 63 'a') 'z' (by decide)
     (by rfl) (by rfl) (by decide)⟩

/-! ## TokenCipher: `encrypt_data` / `decrypt_data` (`gmail_mcp/utils/encryption.py`)

The AES-256-GCM primitive comes from the external `cryptography` package; it
is modelled as an abstract authenticated cipher whose only assumed property
is its documented decrypt-of-encrypt round trip. -/

/-- Abstract authenticated cipher (the `AESGCM` object): `enc iv p k` is the
ciphertext-plus-tag, `dec iv c k` verifies and decrypts. -/
structure AEAD where
  enc : Bytes → Bytes → Bytes → Bytes
  dec : Bytes → Bytes → Bytes → Option Bytes

/-- The round-trip contract of the external AES-GCM implementation. -/
def AEAD.Correct (A : AEAD) : Prop :=
  ∀ iv p k, A.dec iv (A.enc iv p k) k = some p

/-- Errors of the encryption layer (`ValidationError` / `TokenError`). -/
inductive CErr where
  | invalidKeyLength (expected got : Nat)
  | invalidIvLength (expected got : Nat)
  | decryptionFailed
deriving DecidableEq, Repr

/-- The dictionary returned by `encrypt_data`. -/
structure EncBlob where
  iv : Bytes
  ciphertext : Bytes
deriving DecidableEq, Repr

/-- `encrypt_data` from `gmail_mcp/utils/encryption.py`.  The fresh random IV
drawn from `os.urandom(12)` is passed in as the `iv` argument. -/
def encrypt_data (A : AEAD) (iv plaintext key : Bytes) : Except CErr EncBlob :=
  if key.length ≠ 32 then .error (.invalidKeyLength 32 key.length)
  else .ok ⟨iv, A.enc iv plaintext key⟩

/-- `decrypt_data` from `gmail_mcp/utils/encryption.py`. -/
def decrypt_data (A : AEAD) (iv ciphertext key : Bytes) : Except CErr Bytes :=
  if key.length ≠ 32 then .error (.invalidKeyLength 32 key.length)
  else if iv.length ≠ 12 then .error (.invalidIvLength 12 iv.length)
  else
    match A.dec iv ciphertext key with
    | some p => .ok p
    | none => .error .decryptionFailed

/-! ## Token layer: `encrypt_token` / `decrypt_token` (`gmail_mcp/auth/tokens.py`)

The JSON codec of the standard library is abstract, constrained by its
round-trip contract; the token dictionary type is a parameter `D`. -/

/-- Abstract JSON codec: `dumps` serializes a token dictionary to UTF-8 bytes,
`loads` parses bytes back. -/
structure JsonCodec (D : Type) where
  dumps : D → Bytes
  loads : Bytes → Option D

/-- Errors of the token layer (`TokenError` in the source). -/
inductive TErr where
  | keyNotSet
  | invalidKeyFormat (e : KeyErr)
  | cryptoFailed (e : CErr)
  | invalidHexEncoding
  | invalidJson
deriving DecidableEq, Repr

/-- `get_encryption_key` from `gmail_mcp/auth/tokens.py`; `env` is the value
of the `TOKEN_ENCRYPTION_KEY` environment variable. -/
def get_encryption_key (env : Option Str) : Except TErr Bytes :=
  match env with
  | none => .error .keyNotSet
  | some s =>
    if s = [] then .error .keyNotSet
    else
      match key_from_hex s with
      | .ok k => .ok k
      | .error e => .error (.invalidKeyFormat e)

/-- The dictionary returned by `encrypt_token`: hex-encoded IV and
ciphertext. -/
structure EncTok where
  iv : Str
  ciphertext : Str
deriving DecidableEq, Repr

/-- `encrypt_token` from `gmail_mcp/auth/tokens.py`. -/
def encrypt_token (A : AEAD) {D : Type} (J : JsonCodec D) (env : Option Str)
    (iv : Bytes) (d : D) : Except TErr EncTok :=
  match get_encryption_key env with
  | .error e => .error e
  | .ok key =>
    match encrypt_data A iv (J.dumps d) key with
    | .error e => .error (.cryptoFailed e)
    | .ok blob => .ok ⟨bytesToHex blob.iv, bytesToHex blob.ciphertext⟩

/-- `decrypt_token` from `gmail_mcp/auth/tokens.py`. -/
def decrypt_token (A : AEAD) {D : Type} (J : JsonCodec D) (env : Option Str)
    (e : EncTok) : Except TErr D :=
  match get_encryption_key env with
  | .error err => .error err
  | .ok key =>
    match pyFromhex e.iv, pyFromhex e.ciphertext with
    | some iv, some ct =>
      match decrypt_data A iv ct key with
      | .error er => .error (.cryptoFailed er)
      | .ok pt =>
        match J.loads pt with
        | some d => .ok d
        | none => .error .invalidJson
    | _, _ => .error .invalidHexEncoding

/-- C2: for every byte string `p` and 32-byte key `k` (and 12-byte IV, as
`os.urandom(12)` always produces), `decrypt_data` of `encrypt_data` returns
`p`; and at the token layer, `decrypt_token` of `encrypt_token` returns the
token dictionary unchanged under a valid 64-hex-character key, given the
round-trip contracts of the external AES-GCM cipher and JSON codec. -/
theorem c2_encrypt_decrypt_roundtrip (A : AEAD) (hA : A.Correct) :
    (∀ p k iv : Bytes, k.length = 32 → iv.length = 12 →
        encrypt_data A iv p k = .ok ⟨iv, A.enc iv p k⟩
        ∧ decrypt_data A iv (A.enc iv p k) k = .ok p)
    ∧ (∀ (D : Type) (J : JsonCodec D) (d : D) (env : Str) (iv : Bytes),
        J.loads (J.dumps d) = some d → iv.length = 12 →
        (pyStrip env).length = 64 → (∀ c ∈ pyStrip env, isHexChar c = true) →
        ∀ e, encrypt_token A J (some env) iv d = .ok e →
          decrypt_token A J (some env) e = .ok d) := by
  constructor
  · intro p k iv hk hiv
    constructor
    · simp [encrypt_data, hk]
    · simp [decrypt_data, hk, hiv, hA iv p k]
  · intro D J d env iv hJ hiv hlen hhex e henc
    obtain ⟨bs, hbs, hbslen⟩ := pyFromhex_allHex 32 (pyStrip env) hhex (by omega)
    have henv : env ≠ [] := by
      intro h
      subst h
      simp [pyStrip] at hlen
    have hkey : get_encryption_key (some env) = .ok bs := by
      simp only [get_encryption_key, key_from_hex]
      rw [if_neg henv, if_neg (by omega), hbs]
    simp only [encrypt_token, hkey, encrypt_data] at henc
    rw [if_neg (by omega)] at henc
    have he : e = ⟨bytesToHex iv, bytesToHex (A.enc iv (J.dumps d) bs)⟩ := by
      cases henc
      rfl
    subst he
    simp only [decrypt_token, hkey, pyFromhex_bytesToHex, decrypt_data]
    rw [if_neg (by omega), if_neg (by omega)]
    have hA2 := hA iv (J.dumps d) bs
    simp only [hA2, hJ]

/-- Trivial cipher used to instantiate the round-trip theorem at a concrete
input. -/
def idAEAD : AEAD := ⟨fun _ p _ => p, fun _ c _ => some c⟩

/-- Trivial codec on `Unit` used to instantiate the round-trip theorem. -/
def unitCodec : JsonCodec Unit := ⟨fun _ => [], fun _ => some ()⟩

theorem c2_encrypt_decrypt_roundtrip_witness :
    decrypt_data idAEAD (List.replicate 12 (0 : Fin 256))
        (idAEAD.enc (List.replicate 12 (0 : Fin 256)) [⟨7, by omega⟩]
          (List.replicate 32 (0 : Fin 256)))
        (List.replicate 32 (0 : Fin 256)) = .ok [⟨7, by omega⟩]
    ∧ decrypt_token idAEAD unitCodec (some (List.replicate 64 'a'))
        ⟨List.replicate 24 '0', []⟩ = .ok () :=
  ⟨((c2_encrypt_decrypt_roundtrip idAEAD (fun _ _ _ => rfl)).1
      [⟨7, by omega⟩] (List.replicate 32 (0 : Fin 256))
      (List.replicate 12 (0 : Fin 256)) (by decide) (by decide)).2,
   (c2_encrypt_decrypt_roundtrip idAEAD (fun _ _ _ => rfl)).2
      Unit unitCodec () (List.replicate 64 'a')
      (List.replicate 12 (0 : Fin 256)) rfl (by decide) (by decide) (by decide)
      ⟨List.replicate 24 '0', []⟩ (by rfl)⟩

/-! ## Token payloads destined for storage (`oauth.py`, `client.py`)

`exchange_code`, `poll_device_flow` and `_do_refresh` each build the
dictionary that is passed to `token_storage.save`.  The dictionaries are
modelled as association lists of string keys and JSON-ish values. -/

/-- A JSON-ish value occurring in a token dictionary. -/
inductive JVal where
  | str (v : Str)
  | null
  | strList (v : List Str)
deriving DecidableEq, Repr

/-- Python truthiness of a `JVal` (`if not client_secret`). -/
def JVal.truthy : JVal → Bool
  | .str s => !s.isEmpty
  | .null => false
  | .strList l => !l.isEmpty

/-- `dict.get(k)`: first binding for `k`, if any. -/
def lookupKey (td : List (Str × JVal)) (k : Str) : Option JVal :=
  (td.find? (fun p => p.1 == k)).map Prod.snd

/-- The fields of a `google.oauth2.credentials.Credentials` object that the
payload builders read. -/
structure GoogleCreds where
  token : Str
  refreshToken : Option Str
  tokenUri : Str
  clientId : Str
  scopes : Option (List Str)
  expiry : Option Str
deriving DecidableEq, Repr

/-- The fixed Google token endpoint (`GOOGLE_TOKEN_URI`). -/
def GOOGLE_TOKEN_URI : Str := "https://oauth2.googleapis.com/token".toList

/-- Encode an optional string the way the payload builders store it (`None`
becomes JSON null). -/
def optStr : Option Str → JVal
  | some s => .str s
  | none => .null

/-- `list(credentials.scopes) if credentials.scopes else get_gmail_scopes()`. -/
def scopesOrDefault (scopes : Option (List Str)) (scopesCfg : List Str) : List Str :=
  match scopes with
  | some l => if l.isEmpty then scopesCfg else l
  | none => scopesCfg

/-- The token dictionary built by `OAuthManager.exchange_code`
(`gmail_mcp/auth/oauth.py`, lines 246-259); `client_secret` is deliberately
not among the keys. -/
def exchange_code_token_data (c : GoogleCreds) (scopesCfg : List Str) :
    List (Str × JVal) :=
  [("access_token".toList, JVal.str c.token),
   ("refresh_token".toList, optStr c.refreshToken),
   ("token_uri".toList, JVal.str c.tokenUri),
   ("client_id".toList, JVal.str c.clientId),
   ("scopes".toList, JVal.strList (scopesOrDefault c.scopes scopesCfg))]
  ++ (match c.expiry with
      | some e => [("expiry".toList, JVal.str e)]
      | none => [])

/-- The token dictionary returned by `OAuthManager.poll_device_flow` on
success (`gmail_mcp/auth/oauth.py`, lines 663-669). -/
def poll_device_success_token_data (accessToken : Str) (refreshToken : Option Str)
    (clientId : Str) (scopesCfg : List Str) : List (Str × JVal) :=
  [("access_token".toList, JVal.str accessToken),
   ("refresh_token".toList, optStr refreshToken),
   ("token_uri".toList, JVal.str GOOGLE_TOKEN_URI),
   ("client_id".toList, JVal.str clientId),
   ("scopes".toList, JVal.strList scopesCfg)]

/-- The token dictionary persisted by `GmailClient._do_refresh`
(`gmail_mcp/gmail/client.py`, lines 168-176). -/
def do_refresh_token_data (c : GoogleCreds) (scopesCfg : List Str) :
    List (Str × JVal) :=
  [("access_token".toList, JVal.str c.token),
   ("refresh_token".toList, optStr c.refreshToken),
   ("token_uri".toList, JVal.str c.tokenUri),
   ("client_id".toList, JVal.str c.clientId),
   ("scopes".toList, JVal.strList (scopesOrDefault c.scopes scopesCfg))]
  ++ (match c.expiry with
      | some e => [("expiry".toList, JVal.str e)]
      | none => [])

/-- Where a later credential build gets its client secret from. -/
inductive SecretSource where
  | fromToken (v : JVal)
  | fromEnv
deriving DecidableEq, Repr

/-- Secret resolution in `GmailClient._build_credentials`
(`gmail_mcp/gmail/client.py`, lines 142-144): use the stored value only when
present and truthy, otherwise fall back to `GOOGLE_CLIENT_SECRET` from the
environment. -/
def build_credentials_secret_source (td : List (Str × JVal)) : SecretSource :=
  match lookupKey td "client_secret".toList with
  | some v => if v.truthy then .fromToken v else .fromEnv
  | none => .fromEnv

/-- Secret resolution in `OAuthManager.refresh_credentials`
(`gmail_mcp/auth/oauth.py`, line 299):
`token_data.get("client_secret", self._client_secret)`. -/
def refresh_credentials_secret_source (td : List (Str × JVal)) : SecretSource :=
  match lookupKey td "client_secret".toList with
  | some v => .fromToken v
  | none => .fromEnv

/-- C1: none of the payloads written to the store — from `exchange_code`,
from `poll_device_flow` on success, and from `_do_refresh` — contains a
`client_secret` key, and both later secret resolutions therefore fall back to
the process configuration. -/
theorem c1_no_client_secret_persisted
    (c : GoogleCreds) (scopesCfg : List Str) (accessToken clientId : Str)
    (refreshToken : Option Str) :
    ("client_secret".toList ∉ (exchange_code_token_data c scopesCfg).map Prod.fst)
    ∧ ("client_secret".toList ∉
        (poll_device_success_token_data accessToken refreshToken clientId
          scopesCfg).map Prod.fst)
    ∧ ("client_secret".toList ∉ (do_refresh_token_data c scopesCfg).map Prod.fst)
    ∧ build_credentials_secret_source (exchange_code_token_data c scopesCfg)
        = .fromEnv
    ∧ build_credentials_secret_source
        (poll_device_success_token_data accessToken refreshToken clientId scopesCfg)
        = .fromEnv
    ∧ build_credentials_secret_source (do_refresh_token_data c scopesCfg)
        = .fromEnv
    ∧ refresh_credentials_secret_source (exchange_code_token_data c scopesCfg)
        = .fromEnv
    ∧ refresh_credentials_secret_source
        (poll_device_success_token_data accessToken refreshToken clientId scopesCfg)
        = .fromEnv
    ∧ refresh_credentials_secret_source (do_refresh_token_data c scopesCfg)
        = .fromEnv := by
  refine ⟨?_, ?_, ?_, ?_, ?_, ?_, ?_, ?_, ?_⟩ <;>
    rcases c with ⟨t, rt, tu, ci, sc, ex⟩ <;>
    cases ex <;>
    simp [exchange_code_token_data, do_refresh_token_data,
      poll_device_success_token_data, build_credentials_secret_source,
      refresh_credentials_secret_source, lookupKey, List.find?]

/-! ## Local-flow callback handler (`CallbackHandler.do_GET`, `oauth.py`)

The handler reads the parsed query parameters (as `parse_qs` produces them:
each key mapped to a non-empty list of values), compares the `state`
parameter with the state generated for the opened authorization URL, and
writes a fixed HTML page plus a status code to the browser. -/

/-- The outcome recorded by the handler into the enclosing flow (the `result`
and `error` closure variables). -/
inductive CallbackOutcome where
  | providerDenied (oauthError : Str)
  | stateMismatch (hint : Str)
  | noCode (paramKeys : List Str)
  | success (code : Str)
  | notFound
deriving DecidableEq, Repr

/-- The HTTP response written back to the browser. -/
structure HttpResponse where
  status : Nat
  body : Str
deriving DecidableEq, Repr

/-- Result of one callback request: response to the browser plus recorded
outcome. -/
structure CallbackResult where
  response : HttpResponse
  outcome : CallbackOutcome
deriving DecidableEq, Repr

/-- The fixed html page written on a state mismatch. -/
def securityErrorPage : Str :=
  "<html><body><h1>Security Error</h1><p>State mismatch. You can close this window.</p></body></html>".toList

/-- The fixed hint placed in the `StateMismatch` error details; deliberately
does not mention either state value. -/
def tamperedHint : Str := "Request may have been tampered with".toList

/-- The fixed html page written when the provider reports an error. -/
def authFailedPage : Str :=
  "<html><body><h1>Authentication Failed</h1><p>You can close this window.</p></body></html>".toList

/-- The fixed html page written on success. -/
def successPage : Str :=
  "<html><body><h1>Authentication Successful!</h1><p>You can close this window and return to the application.</p></body></html>".toList

/-- The fixed html page written when no code is present. -/
def noCodePage : Str :=
  "<html><body><h1>Error</h1><p>No authorization code received.</p></body></html>".toList

/-- `params.get(k, [None])[0]`: first value bound to `k`, if the key is
present. -/
def qget (params : List (Str × List Str)) (k : Str) : Option Str :=
  match params.find? (fun p => p.1 == k) with
  | some (_, vs) => vs.head?
  | none => none

/-- `CallbackHandler.do_GET` (`gmail_mcp/auth/oauth.py`, lines 429-496) as a
function of the request path, the parsed query parameters and the expected
CSRF state. -/
def callback_do_GET (path : Str) (params : List (Str × List Str))
    (state : Str) : CallbackResult :=
  if path = "/oauth/callback".toList then
    match params.find? (fun p => p.1 == "error".toList) with
    | some (_, vs) =>
      { response := ⟨400, authFailedPage⟩,
        outcome := .providerDenied (vs.headD []) }
    | none =>
      if qget params "state".toList ≠ some state then
        { response := ⟨400, securityErrorPage⟩,
          outcome := .stateMismatch tamperedHint }
      else
        match qget params "code".toList with
        | some code =>
          if code.isEmpty then
            { response := ⟨400, noCodePage⟩,
              outcome := .noCode (params.map Prod.fst) }
          else
            { response := ⟨200, successPage⟩, outcome := .success code }
        | none =>
          { response := ⟨400, noCodePage⟩,
            outcome := .noCode (params.map Prod.fst) }
  else { response := ⟨404, []⟩, outcome := .notFound }

/-- C3: a callback on `/oauth/callback` with no `error` parameter whose
`state` parameter differs from the expected state (including when a valid
`code` is present) yields the `StateMismatch` outcome with status 400, and
the whole result — response body and error detail — is the fixed constant
below, which does not depend on (and hence cannot leak) the expected state
value. -/
theorem c3_state_mismatch_rejected (params : List (Str × List Str))
    (expectedState : Str)
    (herr : params.find? (fun p => p.1 == "error".toList) = none)
    (hstate : qget params "state".toList ≠ some expectedState) :
    callback_do_GET "/oauth/callback".toList params expectedState
      = { response := ⟨400, securityErrorPage⟩,
          outcome := .stateMismatch tamperedHint } := by
  simp only [callback_do_GET, if_pos rfl, herr]
  rw [if_pos hstate]
  simp

theorem c3_state_mismatch_rejected_witness :
    callback_do_GET "/oauth/callback".toList
        [("state".toList, ["evil".toList]), ("code".toList, ["abc".toList])]
        "expected".toList
      = { response := ⟨400, securityErrorPage⟩,
          outcome := .stateMismatch tamperedHint } :=
  c3_state_mismatch_rejected
    [("state".toList, ["evil".toList]), ("code".toList, ["abc".toList])]
    "expected".toList (by rfl) (by decide)

/-! ## CredentialCache: `GmailClient.get_service` (`gmail_mcp/gmail/client.py`)

One call of `get_service` for one identity is modelled as a pure function of
the cached credential, the stored token (as the credential
`_build_credentials` would produce from it), and an oracle listing the
outcome of each successive `creds.refresh(Request())` network call (`some c`
= refresh succeeded yielding credential `c`; `none` = the refresh raised).
The `token_storage.save` inside `_do_refresh` does not affect the claim and
is elided.  The derived Gmail service object is identified with the
credential backing it. -/

/-- The credential fields `get_service` inspects. -/
structure CacheCredState where
  valid : Bool
  expired : Bool
  hasRefreshToken : Bool
deriving DecidableEq, Repr

/-- Errors raised by `get_service` (all `AuthenticationError` in the source,
distinguished by message). -/
inductive GetServiceErr where
  | notAuthenticated
  | refreshFailed
  | invalidCredentials
deriving DecidableEq, Repr

/-- Observable result of one `get_service` call: the returned service (as the
credential backing it) or the propagated error, the cache entry for the
identity after the call, and how many refresh requests were sent to the token
endpoint. -/
structure GetServiceResult where
  result : Except GetServiceErr CacheCredState
  finalCache : Option CacheCredState
  refreshCalls : Nat
deriving Repr

/-- The storage-load branch of `get_service` (lines 94-126): load the token,
build credentials, refresh if expired with a refresh token, raise on failure.
`prevCache` is the cache entry at this point (`none` if it was just
invalidated or never existed) and `calls` the refresh requests so far. -/
def get_service_load_path (prevCache : Option CacheCredState)
    (storage : Option CacheCredState) (oracle : List (Option CacheCredState))
    (calls : Nat) : GetServiceResult :=
  match storage with
  | none => ⟨.error .notAuthenticated, prevCache, calls⟩
  | some lc =>
    if lc.expired && lc.hasRefreshToken then
      match oracle with
      | some c2 :: _ => ⟨.ok c2, some c2, calls + 1⟩
      | _ => ⟨.error .refreshFailed, prevCache, calls + 1⟩
    else if !lc.valid then ⟨.error .invalidCredentials, prevCache, calls⟩
    else ⟨.ok lc, some lc, calls⟩

/-- `GmailClient.get_service` (lines 46-126) for one identity, single call.
Fast path; then under the per-identity refresh lock: double-check, refresh
the cached credential if it is expired with a refresh token (on failure
invalidate the cache entry and fall through), then the storage-load branch. -/
def get_service (cache : Option CacheCredState)
    (storage : Option CacheCredState)
    (oracle : List (Option CacheCredState)) : GetServiceResult :=
  match cache with
  | some c =>
    if c.valid then ⟨.ok c, some c, 0⟩
    else if c.expired && c.hasRefreshToken then
      match oracle with
      | some c2 :: _ => ⟨.ok c2, some c2, 1⟩
      | _ :: rest => get_service_load_path none storage rest 1
      | [] => get_service_load_path none storage [] 1
    else get_service_load_path (some c) storage oracle 0
  | none => get_service_load_path none storage oracle 0

/-- C4 as stated is refuted below: with a cached expired credential whose
refresh fails, `get_service` does not propagate a refresh error — it
invalidates the entry, reloads the token from storage and performs a second
refresh attempt, which here succeeds, so the caller receives a service and
the token endpoint was hit twice. -/
theorem c4_refresh_failure_counterexample :
    get_service (some ⟨false, true, true⟩) (some ⟨false, true, true⟩)
        [none, some ⟨true, false, true⟩]
      = ⟨.ok ⟨true, false, true⟩, some ⟨true, false, true⟩, 2⟩
    ∧ (get_service (some ⟨false, true, true⟩) (some ⟨false, true, true⟩)
        [none, some ⟨true, false, true⟩]).refreshCalls ≠ 1 :=
  ⟨by rfl, by decide⟩

/-- C4 (amended): when refreshing the cached credential fails, `get_service`
invalidates the cache entry and falls back to the storage-load branch rather
than propagating immediately; an authentication error propagates (with the
entry left invalidated) only when that branch also fails — no stored token
gives `notAuthenticated` after one refresh call, and a stored expired token
whose own refresh also fails gives `refreshFailed` after two refresh calls.
In every case at most two refresh requests are sent per call. -/
theorem c4_refresh_failure_amended :
    (∀ (c : CacheCredState) (rest : List (Option CacheCredState)),
      c.valid = false → c.expired = true → c.hasRefreshToken = true →
      get_service (some c) none (none :: rest)
        = ⟨.error .notAuthenticated, none, 1⟩)
    ∧ (∀ (c lc : CacheCredState) (rest : List (Option CacheCredState)),
      c.valid = false → c.expired = true → c.hasRefreshToken = true →
      lc.expired = true → lc.hasRefreshToken = true → rest.headD none = none →
      get_service (some c) (some lc) (none :: rest)
        = ⟨.error .refreshFailed, none, 2⟩)
    ∧ (∀ (cache storage : Option CacheCredState)
        (oracle : List (Option CacheCredState)),
      (get_service cache storage oracle).refreshCalls ≤ 2) := by
  refine ⟨?_, ?_, ?_⟩
  · intro c rest hv he hr
    simp [get_service, hv, he, hr, get_service_load_path]
  · intro c lc rest hv he hr hle hlr hrest
    simp only [get_service, hv, Bool.false_eq_true, if_false, he, hr,
      Bool.and_self, if_true]
    match rest, hrest with
    | [], _ => simp [get_service_load_path, hle, hlr]
    | none :: rest2, _ => simp [get_service_load_path, hle, hlr]
    | some c2 :: rest2, hrest => simp at hrest
  · intro cache storage oracle
    have hload : ∀ (pc st : Option CacheCredState)
        (ora : List (Option CacheCredState)) (n : Nat),
        (get_service_load_path pc st ora n).refreshCalls ≤ n + 1 := by
      intro pc st ora n
      match st with
      | none => simp [get_service_load_path]
      | some lc =>
        simp only [get_service_load_path]
        by_cases h : lc.expired && lc.hasRefreshToken
        · rw [if_pos h]
          match ora with
          | some c2 :: _ => simp
          | [] => simp
          | none :: _ => simp
        · rw [if_neg h]
          by_cases h2 : !lc.valid
          · simp [h2]
          · simp [h2]
    match cache with
    | none => exact le_trans (hload none storage oracle 0) (by omega)
    | some c =>
      simp only [get_service]
      by_cases hv : c.valid
      · simp [hv]
      · rw [if_neg hv]
        by_cases hr : c.expired && c.hasRefreshToken
        · rw [if_pos hr]
          match oracle with
          | some c2 :: _ => simp
          | [] => exact hload none storage [] 1
          | none :: rest => exact hload none storage rest 1
        · rw [if_neg hr]
          exact le_trans (hload (some c) storage oracle 0) (by omega)

theorem c4_refresh_failure_amended_witness :
    get_service (some ⟨false, true, true⟩) none [none]
        = ⟨.error .notAuthenticated, none, 1⟩
    ∧ get_service (some ⟨false, true, true⟩) (some ⟨false, true, true⟩)
        [none, none] = ⟨.error .refreshFailed, none, 2⟩
    ∧ (get_service (some ⟨false, true, true⟩) (some ⟨false, true, true⟩)
        [none, none]).refreshCalls ≤ 2 :=
  ⟨c4_refresh_failure_amended.1 ⟨false, true, true⟩ [] rfl rfl rfl,
   c4_refresh_failure_amended.2.1 ⟨false, true, true⟩ ⟨false, true, true⟩
     [none] rfl rfl rfl rfl rfl rfl,
   c4_refresh_failure_amended.2.2 (some ⟨false, true, true⟩)
     (some ⟨false, true, true⟩) [none, none]⟩

/-! ## TokenStorage.save file write (`gmail_mcp/auth/storage.py`, lines 87-124)

`save` serializes the encrypted payload and writes it with
`path.write_text(...)`, i.e. `open(path, "w")` (truncate in place) followed
by writing the text, then `chmod`.  The write is modelled as a sequence of
primitive file operations — truncate, one write per character, chmod — and an
interruption as executing only a prefix of that sequence. -/

/-- A primitive operation on the token file. -/
inductive FsOp where
  | truncateOp
  | writeCharOp (c : Char)
  | chmodOp
deriving DecidableEq, Repr

/-- The operation sequence `path.write_text(data)` + `path.chmod(0o600)`
performs, where `data` is the serialized encrypted payload
`json.dumps(encrypt_token(token_data), indent=2)`. -/
def save_write_ops (data : Str) : List FsOp :=
  FsOp.truncateOp :: (data.map FsOp.writeCharOp ++ [FsOp.chmodOp])

/-- Effect of one primitive operation on the file contents (`none` = file
does not exist). -/
def applyFsOp (file : Option Str) : FsOp → Option Str
  | .truncateOp => some []
  | .writeCharOp c => some (file.getD [] ++ [c])
  | .chmodOp => file

/-- Effect of a sequence of operations. -/
def applyFsOps (file : Option Str) (ops : List FsOp) : Option Str :=
  ops.foldl applyFsOp file

/-- C5 as stated is refuted below: the write is not atomic with respect to
interruption.  If the write is interrupted right after the truncate (one
primitive operation executed), the previously stored valid contents are
destroyed: the file is left empty, not intact. -/
theorem c5_save_atomicity_counterexample :
    applyFsOps (some "OLDTOKEN".toList)
        ((save_write_ops "NEWPAYLOAD".toList).take 1) = some []
    ∧ some ([] : Str) ≠ some "OLDTOKEN".toList :=
  ⟨by rfl, by decide⟩

/-- Helper: running the write-then-chmod tail over an accumulated file
content appends exactly the first `j` characters of the payload. -/
theorem applyFsOps_write_tail (data : Str) :
    ∀ (j : Nat) (acc : Str),
      applyFsOps (some acc) ((data.map FsOp.writeCharOp ++ [FsOp.chmodOp]).take j)
        = some (acc ++ data.take j) := by
  induction data with
  | nil =>
    intro j acc
    match j with
    | 0 => simp [applyFsOps]
    | j + 1 => simp [applyFsOps, applyFsOp]
  | cons c cs ih =>
    intro j acc
    match j with
    | 0 => simp [applyFsOps]
    | j + 1 =>
      simp only [List.map_cons, List.cons_append, List.take_succ_cons,
        List.take_cons]
      show applyFsOps (applyFsOp (some acc) (FsOp.writeCharOp c))
        ((cs.map FsOp.writeCharOp ++ [FsOp.chmodOp]).take j) = _
      rw [show applyFsOp (some acc) (FsOp.writeCharOp c) = some (acc ++ [c])
        from rfl]
      rw [ih j (acc ++ [c])]
      simp

/-- C5 (amended): `save` overwrites the token file in place, so it is not
atomic — once the truncate has run, any interruption leaves the file holding
exactly the prefix of the new serialized payload written so far (the previous
contents are destroyed); only a run of the full operation sequence, after
which `save` returns success, leaves the file holding the complete serialized
encrypted payload. -/
theorem c5_save_write_amended :
    (∀ (file : Option Str) (data : Str),
      applyFsOps file (save_write_ops data) = some data)
    ∧ (∀ (file : Option Str) (data : Str) (k : Nat), 1 ≤ k →
      applyFsOps file ((save_write_ops data).take k)
        = some (data.take (k - 1))) := by
  constructor
  · intro file data
    have h := applyFsOps_write_tail data
      (data.map FsOp.writeCharOp ++ [FsOp.chmodOp]).length []
    rw [List.take_length] at h
    have hall : data.take (data.map FsOp.writeCharOp ++ [FsOp.chmodOp]).length
        = data := by
      apply List.take_of_length_le
      simp
    rw [hall] at h
    show applyFsOps (applyFsOp file FsOp.truncateOp)
      (data.map FsOp.writeCharOp ++ [FsOp.chmodOp]) = some data
    rw [show applyFsOp file FsOp.truncateOp = some [] from rfl]
    simpa using h
  · intro file data k hk
    match k, hk with
    | k + 1, _ =>
      simp only [save_write_ops, List.take_succ_cons, Nat.add_sub_cancel]
      show applyFsOps (applyFsOp file FsOp.truncateOp)
        ((data.map FsOp.writeCharOp ++ [FsOp.chmodOp]).take k) = _
      rw [show applyFsOp file FsOp.truncateOp = some [] from rfl]
      rw [applyFsOps_write_tail data k []]
      simp

theorem c5_save_write_amended_witness :
    applyFsOps (some "OLDTOKEN".toList) (save_write_ops "NEWPAYLOAD".toList)
        = some "NEWPAYLOAD".toList
    ∧ applyFsOps (some "OLDTOKEN".toList)
        ((save_write_ops "NEWPAYLOAD".toList).take 4)
        = some ("NEWPAYLOAD".toList.take 3) :=
  ⟨c5_save_write_amended.1 (some "OLDTOKEN".toList) "NEWPAYLOAD".toList,
   c5_save_write_amended.2 (some "OLDTOKEN".toList) "NEWPAYLOAD".toList 4
     (by decide)⟩

/-! ## DeviceAuthorizationFlow polling (`OAuthManager.poll_device_flow`)

The loop in `gmail_mcp/auth/oauth.py` (lines 641-714) is modelled with the
successive provider responses supplied as a list (one response per
`requests.post` to the token endpoint).  The result is paired with the
number of token-endpoint requests the loop made. -/

/-- One provider response to a device-flow poll. -/
inductive DevResp where
  | success (accessToken : Str) (refreshToken : Option Str)
  | err (code : Str)
  | netError
deriving DecidableEq, Repr

/-- Terminal outcome of `poll_device_flow`. -/
inductive PollResult where
  | ok (accessToken : Str) (refreshToken : Option Str)
  | userDenied
  | deviceExpired
  | flowError (code : Str)
  | timedOut
  | oracleExhausted
deriving DecidableEq, Repr

/-- The polling loop of `poll_device_flow`: `elapsed` and the current
`interval` evolve as in the source (`slow_down` adds 5 seconds before the
next sleep; a network error sleeps and retries; terminal provider errors
raise immediately).  Returns the outcome and the number of token-endpoint
requests made.  `oracleExhausted` marks runs needing more responses than
supplied and occurs in no theorem below. -/
def poll_device_loop (resps : List DevResp) (elapsed interval timeout : Nat) :
    PollResult × Nat :=
  if elapsed < timeout then
    match resps with
      | [] => (.oracleExhausted, 0)
      | r :: rest =>
        match r with
        | .success a rt => (.ok a rt, 1)
        | .err code =>
          if code = "authorization_pending".toList then
            ((poll_device_loop rest (elapsed + interval) interval timeout).1,
             (poll_device_loop rest (elapsed + interval) interval timeout).2 + 1)
          else if code = "slow_down".toList then
            ((poll_device_loop rest (elapsed + (interval + 5)) (interval + 5)
                timeout).1,
             (poll_device_loop rest (elapsed + (interval + 5)) (interval + 5)
                timeout).2 + 1)
          else if code = "access_denied".toList then (.userDenied, 1)
          else if code = "expired_token".toList then (.deviceExpired, 1)
          else (.flowError code, 1)
        | .netError =>
          ((poll_device_loop rest (elapsed + interval) interval timeout).1,
           (poll_device_loop rest (elapsed + interval) interval timeout).2 + 1)
    else (.timedOut, 0)

/-- `poll_device_flow(device_code, interval, timeout)` starts the loop with
`elapsed = 0` at the configured initial interval. -/
def poll_device_flow (resps : List DevResp) (interval timeout : Nat) :
    PollResult × Nat :=
  poll_device_loop resps 0 interval timeout

/-- Helper: a run of `authorization_pending` responses that accumulates at
least the timeout ends in `timedOut`. -/
theorem poll_device_loop_pending_timeout (interval timeout : Nat) :
    ∀ (n : Nat) (elapsed : Nat), timeout ≤ elapsed + n * interval →
      (poll_device_loop
        (List.replicate n (DevResp.err "authorization_pending".toList))
        elapsed interval timeout).1 = .timedOut := by
  intro n
  induction n with
  | zero =>
    intro elapsed h
    simp only [Nat.zero_mul, Nat.add_zero] at h
    rw [poll_device_loop.eq_def]
    rw [if_neg (by omega)]
  | succ m ih =>
    intro elapsed h
    by_cases he : elapsed < timeout
    · rw [List.replicate_succ, poll_device_loop.eq_def, if_pos he]
      simp only [if_pos rfl]
      exact ih (elapsed + interval)
        (by have h2 := h; rw [Nat.succ_mul] at h2; omega)
    · rw [poll_device_loop.eq_def, if_neg he]

/-- C6: an `authorization_pending` response is followed by another poll with
`elapsed` advanced by the current interval; `slow_down` adds the fixed step 5
to the interval before the next poll (which also sleeps the increased
interval); `access_denied` and `expired_token` terminate immediately with the
corresponding errors after exactly the one request that returned them;
whenever the accumulated elapsed time reaches the timeout, the loop fails
with the timeout error making no further requests; and a pure
`authorization_pending` run whose sleeps accumulate to the timeout ends in
the timeout error. -/
theorem c6_poll_device_flow_behavior (rest : List DevResp)
    (elapsed interval timeout : Nat) (h : elapsed < timeout) :
    (poll_device_loop (.err "authorization_pending".toList :: rest)
        elapsed interval timeout
      = ((poll_device_loop rest (elapsed + interval) interval timeout).1,
         (poll_device_loop rest (elapsed + interval) interval timeout).2 + 1))
    ∧ (poll_device_loop (.err "slow_down".toList :: rest)
        elapsed interval timeout
      = ((poll_device_loop rest (elapsed + (interval + 5)) (interval + 5)
            timeout).1,
         (poll_device_loop rest (elapsed + (interval + 5)) (interval + 5)
            timeout).2 + 1))
    ∧ poll_device_loop (.err "access_denied".toList :: rest)
        elapsed interval timeout = (.userDenied, 1)
    ∧ poll_device_loop (.err "expired_token".toList :: rest)
        elapsed interval timeout = (.deviceExpired, 1)
    ∧ (∀ (resps : List DevResp) (elapsed2 : Nat), timeout ≤ elapsed2 →
        poll_device_loop resps elapsed2 interval timeout = (.timedOut, 0))
    ∧ (∀ n : Nat, timeout ≤ n * interval →
        (poll_device_flow
          (List.replicate n (DevResp.err "authorization_pending".toList))
          interval timeout).1 = .timedOut) := by
  refine ⟨?_, ?_, ?_, ?_, ?_, ?_⟩
  · rw [poll_device_loop.eq_def, if_pos h]
    simp
  · rw [poll_device_loop.eq_def, if_pos h]
    simp only [if_neg (by decide : ¬("slow_down".toList
      = "authorization_pending".toList)), if_pos rfl]
    simp
  · rw [poll_device_loop.eq_def, if_pos h]
    simp only [if_neg (by decide : ¬("access_denied".toList
      = "authorization_pending".toList)),
      if_neg (by decide : ¬("access_denied".toList = "slow_down".toList)),
      if_pos rfl]
    simp
  · rw [poll_device_loop.eq_def, if_pos h]
    simp only [if_neg (by decide : ¬("expired_token".toList
      = "authorization_pending".toList)),
      if_neg (by decide : ¬("expired_token".toList = "slow_down".toList)),
      if_neg (by decide : ¬("expired_token".toList = "access_denied".toList)),
      if_pos rfl]
    simp
  · intro resps elapsed2 h2
    rw [poll_device_loop.eq_def, if_neg (by omega)]
  · intro n hn
    exact poll_device_loop_pending_timeout interval timeout n 0 (by omega)

theorem c6_poll_device_flow_behavior_witness :
    poll_device_loop [.err "access_denied".toList] 0 5 300 = (.userDenied, 1)
    ∧ poll_device_loop [] 300 5 300 = (.timedOut, 0)
    ∧ (poll_device_flow
        (List.replicate 60 (DevResp.err "authorization_pending".toList))
        5 300).1 = .timedOut :=
  ⟨(c6_poll_device_flow_behavior [] 0 5 300 (by decide)).2.2.1,
   (c6_poll_device_flow_behavior [] 0 5 300 (by decide)).2.2.2.2.1 [] 300
     (by decide),
   (c6_poll_device_flow_behavior [] 0 5 300 (by decide)).2.2.2.2.2 60
     (by decide)⟩

/-! ## Concurrent refresh coordination (`GmailClient`, `gmail_mcp/gmail/client.py`)

Ten threads calling `get_service` for one identity whose cached credential
is expired but refreshable (and whose refresh succeeds) are modelled as an
interleaving of atomic events.  Each thread performs its fast-path check
(atomic: it runs under the global cache lock) and then, if needed, its
critical section (the region from acquiring the per-identity refresh lock to
returning: double-check, refresh, cache update).  Critical sections of
different threads for the same identity are serialized by the per-identity
lock, and a fast-path check observes the cache either before or after any
given critical section's single locked cache update, so every execution is
equivalent to a sequence of these atomic events.  A schedule is a list of
thread ids; each occurrence runs the named thread's next step. -/

/-- The credential in the cache entry: the original expired one or the
refreshed one. -/
inductive CachedCred where
  | expiredTok
  | freshTok
deriving DecidableEq, Repr

/-- Progress of one thread through `get_service`. -/
inductive ThreadPhase where
  | start
  | needsRefresh
  | finished (backing : CachedCred)
deriving DecidableEq, Repr

/-- Whether a thread has returned from `get_service`. -/
def ThreadPhase.isDone : ThreadPhase → Bool
  | .finished _ => true
  | _ => false

/-- Global state: the cache entry for the identity, the number of refresh
requests sent to the token endpoint, and each thread's phase. -/
structure ConcState (n : Nat) where
  cache : CachedCred
  refreshCount : Nat
  threads : Fin n → ThreadPhase

/-- One atomic event: thread `i` runs its next step of `get_service`.
`start`: the fast-path check under the global lock (lines 59-64) — return
the cached service if the credential is valid, else proceed to the refresh
lock.  `needsRefresh`: the critical section under the per-identity refresh
lock (lines 69-92) — double-check the cache (another thread may have
refreshed while waiting) and return if now valid, otherwise refresh the
expired credential (one token-endpoint request, which succeeds here) and
update the cache.  A finished thread does nothing. -/
def concStep {n : Nat} (s : ConcState n) (i : Fin n) : ConcState n :=
  match s.threads i with
  | .start =>
    match s.cache with
    | .freshTok =>
      { s with threads := Function.update s.threads i (.finished .freshTok) }
    | .expiredTok =>
      { s with threads := Function.update s.threads i .needsRefresh }
  | .needsRefresh =>
    match s.cache with
    | .freshTok =>
      { s with threads := Function.update s.threads i (.finished .freshTok) }
    | .expiredTok =>
      { cache := .freshTok, refreshCount := s.refreshCount + 1,
        threads := Function.update s.threads i (.finished .freshTok) }
  | .finished _ => s

/-- Run a schedule from a state. -/
def concRun {n : Nat} (s : ConcState n) (sched : List (Fin n)) : ConcState n :=
  sched.foldl concStep s

/-- Initial state of the scenario: a cached service whose credential is
expired with a valid refresh token, no refresh requests yet, all threads
about to call `get_service`. -/
def concInit (n : Nat) : ConcState n :=
  ⟨.expiredTok, 0, fun _ => .start⟩

/-- The inductive invariant: the refresh count tracks whether the cache has
been refreshed, no thread finishes while the cache is still expired, and
every finished thread holds the refreshed credential. -/
def ConcInv {n : Nat} (s : ConcState n) : Prop :=
  (s.cache = .freshTok → s.refreshCount = 1)
  ∧ (s.cache = .expiredTok →
      s.refreshCount = 0 ∧ ∀ i, (s.threads i).isDone = false)
  ∧ (∀ i b, s.threads i = .finished b → b = .freshTok)

/-- A thread-map update with a non-finished or fresh-finished phase keeps the
third invariant clause. -/
theorem updated_finished_fresh {n : Nat} (f : Fin n → ThreadPhase) (i : Fin n)
    (v : ThreadPhase)
    (hd : ∀ j b, f j = .finished b → b = CachedCred.freshTok)
    (hv : ∀ b, v = .finished b → b = CachedCred.freshTok) :
    ∀ j b, Function.update f i v j = .finished b → b = CachedCred.freshTok := by
  intro j b hj
  rcases eq_or_ne j i with rfl | hne
  · rw [Function.update_same] at hj
    exact hv b hj
  · rw [Function.update_noteq hne] at hj
    exact hd j b hj

theorem concStep_inv {n : Nat} (s : ConcState n) (i : Fin n)
    (h : ConcInv s) : ConcInv (concStep s i) := by
  obtain ⟨hf, he, hd⟩ := h
  rcases hti : s.threads i with _ | _ | b
  · rcases hc : s.cache with _ | _
    · have hstep : concStep s i
          = { s with threads := Function.update s.threads i .needsRefresh } := by
        simp [concStep, hti, hc]
      rw [hstep]
      refine ⟨fun hcon => absurd hcon (by simp [hc]), fun _ => ?_, ?_⟩
      · refine ⟨(he hc).1, fun j => ?_⟩
        rcases eq_or_ne j i with rfl | hne
        · simp [Function.update_same, ThreadPhase.isDone]
        · simp only [Function.update_noteq hne]
          exact (he hc).2 j
      · exact updated_finished_fresh s.threads i .needsRefresh hd
          (fun b hb => by cases hb)
    · have hstep : concStep s i
          = { s with threads :=
                Function.update s.threads i (.finished .freshTok) } := by
        simp [concStep, hti, hc]
      rw [hstep]
      refine ⟨fun _ => hf hc, fun hcon => absurd hcon (by simp [hc]), ?_⟩
      exact updated_finished_fresh s.threads i (.finished .freshTok) hd
        (fun b hb => by cases hb; rfl)
  · rcases hc : s.cache with _ | _
    · have hstep : concStep s i
          = { cache := .freshTok, refreshCount := s.refreshCount + 1,
              threads := Function.update s.threads i (.finished .freshTok) } := by
        simp [concStep, hti, hc]
      rw [hstep]
      refine ⟨fun _ => ?_, fun hcon => ?_, ?_⟩
      · simp [(he hc).1]
      · exact absurd hcon (by simp)
      · exact updated_finished_fresh s.threads i (.finished .freshTok) hd
          (fun b hb => by cases hb; rfl)
    · have hstep : concStep s i
          = { s with threads :=
                Function.update s.threads i (.finished .freshTok) } := by
        simp [concStep, hti, hc]
      rw [hstep]
      refine ⟨fun _ => hf hc, fun hcon => absurd hcon (by simp [hc]), ?_⟩
      exact updated_finished_fresh s.threads i (.finished .freshTok) hd
        (fun b hb => by cases hb; rfl)
  · have hstep : concStep s i = s := by
      simp [concStep, hti]
    rw [hstep]
    exact ⟨hf, he, hd⟩

theorem concRun_inv {n : Nat} (sched : List (Fin n)) (s : ConcState n)
    (h : ConcInv s) : ConcInv (concRun s sched) := by
  induction sched generalizing s with
  | nil => exact h
  | cons i rest ih => exact ih (concStep s i) (concStep_inv s i h)

/-- C8: for every interleaving of the ten threads' atomic events in which all
ten calls complete, exactly one refresh request was sent to the token
endpoint, and every caller received a service backed by the same refreshed
credential. -/
theorem c8_single_refresh_all_same (sched : List (Fin 10))
    (hdone : ∀ i, ((concRun (concInit 10) sched).threads i).isDone = true) :
    (concRun (concInit 10) sched).refreshCount = 1
    ∧ ∀ i b, (concRun (concInit 10) sched).threads i = .finished b →
        b = .freshTok := by
  have hinv : ConcInv (concRun (concInit 10) sched) := by
    apply concRun_inv
    refine ⟨?_, ?_, ?_⟩
    · intro hcon
      exact absurd hcon (by decide)
    · intro _
      exact ⟨rfl, fun _ => rfl⟩
    · intro i b hb
      simp [concInit] at hb
  obtain ⟨hf, he, hd⟩ := hinv
  have hcache : (concRun (concInit 10) sched).cache = .freshTok := by
    rcases hc : (concRun (concInit 10) sched).cache with _ | _
    · have h0 := (he hc).2 ⟨0, by omega⟩
      rw [hdone ⟨0, by omega⟩] at h0
      cases h0
    · rfl
  exact ⟨hf hcache, hd⟩

theorem c8_single_refresh_all_same_witness :
    (concRun (concInit 10)
      ((List.finRange 10) ++ (List.finRange 10))).refreshCount = 1 :=
  (c8_single_refresh_all_same ((List.finRange 10) ++ (List.finRange 10))
    (by decide)).1

/-! ## Port fallback and the redirect URI (`OAuthManager.run_local_server`)

Lines 501-535 of `gmail_mcp/auth/oauth.py`: after binding the callback
server (possibly on a fallback port), the flow builds the authorization URL.
When the actual port differs from the requested one, `self._redirect_uri` is
temporarily overwritten with the actual-port URI for `create_auth_url` and
then restored to its original value, and `exchange_code` later reads
`self._redirect_uri` for the token-exchange request. -/

/-- The loopback callback URI for a port
(`f"http://localhost:{port}/oauth/callback"`). -/
def localhost_callback_uri (port : Nat) : Str :=
  "http://localhost:".toList ++ Nat.toDigits 10 port ++ "/oauth/callback".toList

/-- The two uses of the mutable `_redirect_uri` field during one
`run_local_server` call. -/
structure RedirectUses where
  authUrlRedirect : Str
  exchangeRedirect : Str
deriving DecidableEq, Repr

/-- The redirect-URI handling of `run_local_server` (lines 508-514 for the
auth URL, line 237 via `exchange_code` for the token exchange), as a function
of the configured `_redirect_uri`, the requested port, and the port the
listener actually bound. -/
def run_local_server_redirects (configured : Str) (port actualPort : Nat) :
    RedirectUses :=
  if actualPort ≠ port then
    let fieldForAuthUrl := localhost_callback_uri actualPort
    let fieldRestored := configured
    { authUrlRedirect := fieldForAuthUrl, exchangeRedirect := fieldRestored }
  else
    { authUrlRedirect := configured, exchangeRedirect := configured }

/-- C9: whenever a fallback port is bound (actual port differs from the
requested one), the authorization URL opened in the browser embeds the
actual-port redirect URI, but `exchange_code` performs the token exchange
with the restored, originally configured redirect URI — not the one the
browser saw.  When the configured URI is not the actual-port loopback URI
(for example the default URI of the requested port), the two differ. -/
theorem c9_redirect_restored_before_exchange (configured : Str)
    (port actualPort : Nat) (hne : actualPort ≠ port) :
    (run_local_server_redirects configured port actualPort).exchangeRedirect
        = configured
    ∧ (run_local_server_redirects configured port actualPort).authUrlRedirect
        = localhost_callback_uri actualPort
    ∧ (configured ≠ localhost_callback_uri actualPort →
        (run_local_server_redirects configured port actualPort).authUrlRedirect
          ≠ (run_local_server_redirects configured port actualPort).exchangeRedirect) := by
  refine ⟨?_, ?_, ?_⟩
  · simp [run_local_server_redirects, hne]
  · simp [run_local_server_redirects, hne]
  · intro hdiff
    simp only [run_local_server_redirects, if_pos hne]
    exact fun h => hdiff h.symm

theorem c9_redirect_restored_before_exchange_witness :
    (run_local_server_redirects (localhost_callback_uri 3000) 3000 3001).exchangeRedirect
        = localhost_callback_uri 3000
    ∧ (run_local_server_redirects (localhost_callback_uri 3000) 3000 3001).authUrlRedirect
        ≠ (run_local_server_redirects (localhost_callback_uri 3000) 3000 3001).exchangeRedirect :=
  ⟨(c9_redirect_restored_before_exchange (localhost_callback_uri 3000) 3000 3001
      (by decide)).1,
   (c9_redirect_restored_before_exchange (localhost_callback_uri 3000) 3000 3001
      (by decide)).2.2 (by decide)⟩

/-! ## Identity sanitization and token file paths (`TokenStorage._token_path`)

Lines 59-85 of `gmail_mcp/auth/storage.py`: keep only characters that are
alphanumeric or in `-_.@`, then replace each `@` with `_at_`.  The store is
modelled as an association map from file path to the most recently saved
record. -/

/-- Python `c.isalnum() or c in "-_.@"` (the identities in the claims are
ASCII, where Python's `isalnum` agrees with ASCII alphanumericity). -/
def sanitizeKeep (c : Char) : Bool :=
  c.isAlphanum || c = '-' || c = '_' || c = '.' || c = '@'

/-- `safe_id.replace("@", "_at_")`. -/
def replaceAtMarker : Str → Str
  | [] => []
  | c :: cs =>
    if c = '@' then '_' :: 'a' :: 't' :: '_' :: replaceAtMarker cs
    else c :: replaceAtMarker cs

/-- The sanitization performed by `TokenStorage._token_path`. -/
def sanitize_user_id (userId : Str) : Str :=
  replaceAtMarker (userId.filter sanitizeKeep)

/-- The token file name for an identity (`{safe_id}.token.enc`), or the
`InvalidIdentity` error when the sanitized id is empty. -/
def token_path (userId : Str) : Except Unit Str :=
  let safeId := sanitize_user_id userId
  if safeId = [] then .error ()
  else .ok (safeId ++ ".token.enc".toList)

/-- `TokenStorage.save`: overwrite the record stored under the identity's
token path.  The store maps file paths to records. -/
def storage_save (store : List (Str × Nat)) (userId : Str) (rec : Nat) :
    Except Unit (List (Str × Nat)) :=
  match token_path userId with
  | .error e => .error e
  | .ok p => .ok ((p, rec) :: store.filter (fun q => !(q.1 == p)))

/-- `TokenStorage.load`: the record stored under the identity's token path,
if any. -/
def storage_load (store : List (Str × Nat)) (userId : Str) :
    Except Unit (Option Nat) :=
  match token_path userId with
  | .error e => .error e
  | .ok p => .ok (((store.find? (fun q => q.1 == p))).map Prod.snd)

/-- C10: the sanitization is not injective — the distinct identities
`user@example.com` and `user_at_example.com` map to the same token file
path, so saving under one overwrites the token of the other, and a
subsequent load under either identity returns the most recently saved
record. -/
theorem c10_sanitization_collision :
    sanitize_user_id "user@example.com".toList
        = sanitize_user_id "user_at_example.com".toList
    ∧ "user@example.com".toList ≠ "user_at_example.com".toList
    ∧ token_path "user@example.com".toList
        = token_path "user_at_example.com".toList
    ∧ (storage_save [] "user@example.com".toList 1 = .ok [("user_at_example.com.token.enc".toList, 1)]
       ∧ storage_save [("user_at_example.com.token.enc".toList, 1)]
           "user_at_example.com".toList 2
           = .ok [("user_at_example.com.token.enc".toList, 2)]
       ∧ storage_load [("user_at_example.com.token.enc".toList, 2)]
           "user@example.com".toList = .ok (some 2)
       ∧ storage_load [("user_at_example.com.token.enc".toList, 2)]
           "user_at_example.com".toList = .ok (some 2)) :=
  ⟨by rfl, by decide, by rfl, by rfl, by rfl, by rfl, by rfl⟩

end GmailMcp
